import Mathlib

/-!
Verification of the bear-sightings extraction / normalization / geocoding
pipeline (`scraping_and_processing.py`).

Python strings are embedded as `List Char` (`Str`), Python `None` / `pd.NA` /
`NaT` as `Option.none`, and every text routine of the source is translated
into an executable Lean function below.  The pandas / numpy library calls the
source relies on (`str.split`, `str.replace`, `re.sub`, `pd.to_datetime`,
`DataFrame.sort_values`) are modelled by their documented semantics on the
inputs this pipeline feeds them.
-/

/-- Python strings modelled as lists of unicode characters. -/
abbrev Str := List Char

/-- Whitespace set used by Python `str.strip` / `str.split()` and by the
`\s` class of the `re` module on the characters appearing in this pipeline:
space, tab, newline, carriage return, form feed, vertical tab and the
ideographic space U+3000. -/
def isWS (c : Char) : Bool :=
  c = ' ' || c = '\t' || c = '\n' || c = '\x0d' || c = '\x0c' || c = '\x0b' || c = '　'

/-- Python `str.lstrip()`. -/
def stripL (s : Str) : Str := s.dropWhile isWS

/-- Python `str.rstrip()`. -/
def stripR (s : Str) : Str := (s.reverse.dropWhile isWS).reverse

/-- Python `str.strip()`. -/
def strip (s : Str) : Str := stripR (stripL s)

/-- Worker for `splitWS`: `cur` is the (reversed) token being accumulated. -/
def splitWSAux (cur : Str) : Str → List Str
  | [] => if cur.isEmpty then [] else [cur.reverse]
  | c :: cs =>
    if isWS c then
      if cur.isEmpty then splitWSAux [] cs else cur.reverse :: splitWSAux [] cs
    else splitWSAux (c :: cur) cs

/-- Python `str.split()` with no argument: split on runs of whitespace,
discarding empty pieces. -/
def splitWS (s : Str) : List Str := splitWSAux [] s

/-- `p.isPrefixOf s` for raw character lists: Python `s.startswith(p)`. -/
def isPrefOf : Str → Str → Bool
  | [], _ => true
  | _ :: _, [] => false
  | p :: ps, c :: cs => p = c && isPrefOf ps cs

/-- Python `pat in s` (substring containment). -/
def containsSub (pat : Str) : Str → Bool
  | [] => isPrefOf pat []
  | c :: cs => isPrefOf pat (c :: cs) || containsSub pat cs

/-- Worker for `replaceAll`, structurally recursive on a fuel that always
exceeds the remaining length (each step consumes at least one character, so
the fuel never runs out). -/
def replaceAllF (pat repl : Str) : Nat → Str → Str
  | 0, s => s
  | _ + 1, [] => []
  | fuel + 1, c :: cs =>
    if isPrefOf pat (c :: cs) && !pat.isEmpty then
      repl ++ replaceAllF pat repl fuel ((c :: cs).drop pat.length)
    else
      c :: replaceAllF pat repl fuel cs

/-- Python `s.replace(pat, repl)`: replace every non-overlapping occurrence,
scanning left to right.  (All patterns used by the source are non-empty.) -/
def replaceAll (pat repl s : Str) : Str := replaceAllF pat repl (s.length + 1) s

/-- Index (in `s`) of the first closing bracket reachable by `.*?` (which does
not cross a newline), as used by `re.sub(r'（.*?）', '', s)`. -/
def findClose (closeC : Char) : Str → Option Nat
  | [] => none
  | c :: cs =>
    if c = closeC then some 0
    else if c = '\n' then none
    else (findClose closeC cs).map (· + 1)

/-- Worker for `subBracket`, structurally recursive on a fuel that always
exceeds the remaining length. -/
def subBracketF (openC closeC : Char) : Nat → Str → Str
  | 0, s => s
  | _ + 1, [] => []
  | fuel + 1, c :: cs =>
    if c = openC then
      match findClose closeC cs with
      | some k => subBracketF openC closeC fuel (cs.drop (k + 1))
      | none => c :: subBracketF openC closeC fuel cs
    else c :: subBracketF openC closeC fuel cs

/-- Model of `re.sub(open ++ ".*?" ++ close, '', s)`: remove every
non-greedily bracketed aside, scanning left to right and resuming after each
removed match. -/
def subBracket (openC closeC : Char) (s : Str) : Str :=
  subBracketF openC closeC (s.length + 1) s

/-- Python truthiness test / `pd.isna` collapse: a missing (`None` / `pd.NA`)
field becomes the empty string, mirroring `'' if pd.isna(x) else str(x)`. -/
def toS : Option Str → Str
  | none => []
  | some s => s

/-- The ward name 緑区 handled specially by `clean_address`. -/
def riku : Str := "緑区".data

/-- The fixed noise-token list of `clean_address` (`remove_words`). -/
def remove_words : List Str :=
  [ "付近".data, "峠".data, "地区".data, "地内".data, "山地".data,
    "徳間".data, "鯨野".data, "釜の口".data, "諏訪内".data, "大道".data, "佐野区".data ]

/-- Model of `clean_address(city, location)` from
`scraping_and_processing.py`: NA→empty, duplicate city prefix stripped from
location, 緑区 migrated into city, truncation at the first middle dot,
bracketed asides removed (full-width and half-width), noise tokens removed,
and both fields stripped. -/
def clean_address (city0 loc0 : Option Str) : Str × Str :=
  let city := toS city0
  let location := toS loc0
  let location :=
    if !city.isEmpty && isPrefOf city location then strip (location.drop city.length)
    else location
  let cl :=
    if containsSub riku location && !containsSub riku city then
      (city ++ riku, replaceAll riku [] location)
    else (city, location)
  let city := cl.1
  let location := cl.2
  let location :=
    if containsSub ['・'] location then location.takeWhile (fun c => c ≠ '・')
    else location
  let location := subBracket '（' '）' location
  let location := subBracket '(' ')' location
  let location := remove_words.foldl (fun l w => replaceAll w [] l) location
  (strip city, strip location)

/-- Digit value of a character, `none` for non-digits (ASCII digits, as
matched by `\d` on the inputs of this pipeline). -/
def digitVal (c : Char) : Option Nat :=
  if 48 ≤ c.toNat && c.toNat ≤ 57 then some (c.toNat - 48) else none

/-- Decimal value of a digit string (little helper for slash dates). -/
def natOfDigits (s : Str) : Nat := s.foldl (fun acc c => 10 * acc + (c.toNat - 48)) 0

/-- Python `s.split(sep)` for a single separator character (keeps empty
pieces). -/
def splitOnC (sep : Char) : Str → List Str
  | [] => [[]]
  | c :: cs =>
    if c = sep then [] :: splitOnC sep cs
    else
      match splitOnC sep cs with
      | h :: t => (c :: h) :: t
      | [] => [[c]]

/-- Calendar dates, ordered like pandas `Timestamp` (lexicographically by
year, month, day). -/
structure Date where
  y : Nat
  m : Nat
  d : Nat
deriving DecidableEq, Repr

/-- Gregorian leap year. -/
def isLeap (y : Nat) : Bool := y % 4 = 0 && (y % 100 ≠ 0 || y % 400 = 0)

/-- Days in a month. -/
def daysInMonth (y m : Nat) : Nat :=
  if m = 2 then (if isLeap y then 29 else 28)
  else if m = 4 || m = 6 || m = 9 || m = 11 then 30
  else 31

/-- A real calendar date (what pandas accepts without coercing to `NaT`). -/
def validDate (dt : Date) : Bool :=
  1 ≤ dt.m && dt.m ≤ 12 && 1 ≤ dt.d && dt.d ≤ daysInMonth dt.y dt.m

/-- Model of `pd.to_datetime(s, errors='coerce')` on the strings this
pipeline feeds it: a `year/month/day` form made of digit runs parses when it
names a real calendar date, everything else coerces to `NaT` (`none`). -/
def parseSlashDate (s : Str) : Option Date :=
  match splitOnC '/' s with
  | [ys, ms, ds] =>
    if !ys.isEmpty && !ms.isEmpty && !ds.isEmpty &&
       ys.all (fun c => (digitVal c).isSome) &&
       ms.all (fun c => (digitVal c).isSome) &&
       ds.all (fun c => (digitVal c).isSome) then
      let dt : Date := ⟨natOfDigits ys, natOfDigits ms, natOfDigits ds⟩
      if validDate dt then some dt else none
    else none
  | _ => none

/-- Model of `convert_date(date_str)`: slash dates are parsed directly; a
`月`/`日` form is prefixed with the hard-coded year 2024 and rewritten to
slash form; anything else (including falsy input) is the `NaT` sentinel. -/
def convert_date (raw : Option Str) : Option Date :=
  match raw with
  | none => none
  | some s =>
    if s.isEmpty then none
    else if s.contains '/' then parseSlashDate s
    else if s.contains '月' && s.contains '日' then
      let t := "2024年".data ++ s
      let t := replaceAll ("年".data) ("/".data) t
      let t := replaceAll ("月".data) ("/".data) t
      let t := replaceAll ("日".data) [] t
      parseSlashDate t
    else none

/-- Coordinate record stored in the geocode dictionary (`longitude`,
`latitude`), each a finite number or null. -/
structure GeoVal where
  longitude : Option ℚ
  latitude : Option ℚ
deriving DecidableEq, Repr

/-- The three-level geocode dictionary
region → locality → sub-area → coordinates, as loaded from
`areas_with_coords.yml` (Python dicts modelled as association lists). -/
abbrev GeoDict := List (Str × List (Str × List (Str × GeoVal)))

/-- The sentinel sub-area key 以下に掲載がない場合. -/
def sentinelArea : Str := "以下に掲載がない場合".data

/-- `geo_dict[pref][city][area]` as a fallible path lookup (a Python
`KeyError` anywhere on the path is `none`). -/
def geoPath (geo : GeoDict) (pref city area : Str) : Option GeoVal :=
  ((List.lookup pref geo).bind (fun c => List.lookup city c)).bind
    (fun m => List.lookup area m)

/-- Model of `lookup_coords(pref, city, area, geo_dict)`: exact three-key
lookup, then the sentinel sub-area for the same region/locality, then null
coordinates. -/
def lookup_coords (pref city area : Str) (geo : GeoDict) : GeoVal :=
  match geoPath geo pref city area with
  | some v => v
  | none =>
    match geoPath geo pref city sentinelArea with
    | some v => v
    | none => { longitude := none, latitude := none }

/-- The fixed region literals of the three sources. -/
def kanagawaPref : Str := "神奈川県".data

def shizuokaPref : Str := "静岡県".data

def yamanashiPref : Str := "山梨県".data

/-- The boundary characters 市 / 町 / 村 used to split Kanagawa place
strings. -/
def isBoundary (c : Char) : Bool := c = '市' || c = '町' || c = '村'

/-- Index of the first character satisfying `p` (`none` when there is
none). -/
def firstIdxP (p : Char → Bool) : Str → Option Nat
  | [] => none
  | c :: cs => if p c then some 0 else (firstIdxP p cs).map (· + 1)

/-- Python `s.find(c)` for one character (`none` for `-1`). -/
def findChar (c : Char) (s : Str) : Option Nat := firstIdxP (fun a => a = c) s

/-- Keep the smaller index, preferring the left one — the update rule of the
`for bw in boundary_words` loop of `parse_kanagawa_location`. -/
def optMin2 : Option Nat → Option Nat → Option Nat
  | none, b => b
  | some i, none => some i
  | some i, some j => if j < i then some j else some i

/-- Index of the earliest 市/町/村 as computed by `parse_kanagawa_location`:
the minimum of the three first-occurrence positions. -/
def pkBoundary (s : Str) : Option Nat :=
  optMin2 (optMin2 (findChar '市' s) (findChar '町' s)) (findChar '村' s)

/-- Model of `parse_kanagawa_location(loc_str)`: falsy input gives
`(NA, NA)`; otherwise split at the earliest 市/町/村 (prefix inclusive into
the city, stripped remainder into the place), or `(NA, loc_str)` when no
boundary character occurs. -/
def parse_kanagawa_location (loc : Option Str) : Option Str × Option Str :=
  match loc with
  | none => (none, none)
  | some s =>
    if s.isEmpty then (none, none)
    else
      match pkBoundary s with
      | some i => (some (s.take (i + 1)), some (strip (s.drop (i + 1))))
      | none => (none, some s)

/-- The fixed county-name alias table `CITY_GUN_MAP`:
(region, locality) → county-qualified locality. -/
def CITY_GUN_MAP : List ((Str × Str) × Str) :=
  [ ((kanagawaPref, "葉山町".data), "三浦郡葉山町".data),
    ((kanagawaPref, "二宮町".data), "中郡二宮町".data),
    ((kanagawaPref, "大磯町".data), "中郡大磯町".data),
    ((kanagawaPref, "愛川町".data), "愛甲郡愛川町".data),
    ((kanagawaPref, "清川村".data), "愛甲郡清川村".data),
    ((kanagawaPref, "中井町".data), "足柄上郡中井町".data),
    ((kanagawaPref, "大井町".data), "足柄上郡大井町".data),
    ((kanagawaPref, "山北町".data), "足柄上郡山北町".data),
    ((kanagawaPref, "松田町".data), "足柄上郡松田町".data),
    ((kanagawaPref, "開成町".data), "足柄上郡開成町".data),
    ((kanagawaPref, "湯河原町".data), "足柄下郡湯河原町".data),
    ((kanagawaPref, "真鶴町".data), "足柄下郡真鶴町".data),
    ((kanagawaPref, "箱根町".data), "足柄下郡箱根町".data),
    ((kanagawaPref, "寒川町".data), "高座郡寒川町".data),
    ((yamanashiPref, "昭和町".data), "中巨摩郡昭和町".data),
    ((yamanashiPref, "丹波山村".data), "北都留郡丹波山村".data),
    ((yamanashiPref, "小菅村".data), "北都留郡小菅村".data),
    ((yamanashiPref, "南部町".data), "南巨摩郡南部町".data),
    ((yamanashiPref, "富士川町".data), "南巨摩郡富士川町".data),
    ((yamanashiPref, "早川町".data), "南巨摩郡早川町".data),
    ((yamanashiPref, "身延町".data), "南巨摩郡身延町".data),
    ((yamanashiPref, "富士河口湖町".data), "南都留郡富士河口湖町".data),
    ((yamanashiPref, "山中湖村".data), "南都留郡山中湖村".data),
    ((yamanashiPref, "忍野村".data), "南都留郡忍野村".data),
    ((yamanashiPref, "西桂町".data), "南都留郡西桂町".data),
    ((yamanashiPref, "道志村".data), "南都留郡道志村".data),
    ((yamanashiPref, "鳴沢村".data), "南都留郡鳴沢村".data),
    ((yamanashiPref, "市川三郷町".data), "西八代郡市川三郷町".data),
    ((shizuokaPref, "森町".data), "周智郡森町".data),
    ((shizuokaPref, "吉田町".data), "榛原郡吉田町".data),
    ((shizuokaPref, "川根本町".data), "榛原郡川根本町".data),
    ((shizuokaPref, "函南町".data), "田方郡函南町".data),
    ((shizuokaPref, "南伊豆町".data), "賀茂郡南伊豆町".data),
    ((shizuokaPref, "東伊豆町".data), "賀茂郡東伊豆町".data),
    ((shizuokaPref, "松崎町".data), "賀茂郡松崎町".data),
    ((shizuokaPref, "河津町".data), "賀茂郡河津町".data),
    ((shizuokaPref, "西伊豆町".data), "賀茂郡西伊豆町".data),
    ((shizuokaPref, "小山町".data), "駿東郡小山町".data),
    ((shizuokaPref, "清水町".data), "駿東郡清水町".data),
    ((shizuokaPref, "長泉町".data), "駿東郡長泉町".data) ]

/-- Model of `fix_city_name(pref, city)` on string input (the `pd.isna`
branch of the source is unreachable here because the caller always passes the
already-cleaned string): alias-table lookup, identity on a miss. -/
def fix_city_name (pref city : Str) : Str :=
  (List.lookup (pref, city) CITY_GUN_MAP).getD city

/-- Fields of a Kanagawa JSON record consumed by `combine_json_data`
(`rec.get` yields `None` for a missing key). -/
structure KJson where
  date : Option Str
  location : Option Str
deriving DecidableEq, Repr

/-- Fields of a Shizuoka JSON record consumed by `combine_json_data`. -/
structure SJson where
  date : Option Str
  municipality : Option Str
  location : Option Str
deriving DecidableEq, Repr

/-- Fields of a Yamanashi JSON record consumed by `combine_json_data`. -/
structure YJson where
  date : Option Str
  city : Option Str
  location : Option Str
deriving DecidableEq, Repr

/-- One row of the combined DataFrame before date conversion:
columns `prefecture`, `date` (raw string), `city`, `location`. -/
structure Row0 where
  prefecture : Str
  date : Option Str
  city : Option Str
  location : Option Str
deriving DecidableEq, Repr

/-- One row of the combined DataFrame after
`df['date'] = df['date'].apply(convert_date)`. -/
structure Row where
  prefecture : Str
  date : Option Date
  city : Option Str
  location : Option Str
deriving DecidableEq, Repr

/-- A default row for positional access (never observed by the theorems). -/
def defRow : Row := { prefecture := [], date := none, city := none, location := none }

/-- Normalization of one Kanagawa JSON record inside `combine_json_data`. -/
def normK (r : KJson) : Row0 :=
  let cl := parse_kanagawa_location r.location
  { prefecture := kanagawaPref, date := r.date, city := cl.1, location := cl.2 }

/-- Normalization of one Shizuoka JSON record inside `combine_json_data`. -/
def normS (r : SJson) : Row0 :=
  { prefecture := shizuokaPref, date := r.date, city := r.municipality,
    location := r.location }

/-- Normalization of one Yamanashi JSON record inside `combine_json_data`. -/
def normY (r : YJson) : Row0 :=
  { prefecture := yamanashiPref, date := r.date, city := r.city,
    location := r.location }

/-- The `normalized_data` list of `combine_json_data`: per-source
normalization, concatenated in the source-processing order
Kanagawa, Shizuoka, Yamanashi. -/
def normalizeAll (k : List KJson) (s : List SJson) (y : List YJson) : List Row0 :=
  k.map normK ++ s.map normS ++ y.map normY

/-- The date-column conversion `df['date'].apply(convert_date)`. -/
def convertRow (r : Row0) : Row :=
  { prefecture := r.prefecture, date := convert_date r.date, city := r.city,
    location := r.location }

/-- Sort key of a date: the int64 view pandas sorts on, order-isomorphic on
valid dates to the nanosecond timestamp. -/
def dateKey (dt : Date) : Nat := dt.y * 10000 + dt.m * 100 + dt.d

/-- Key of the element `t[p]` during argsort (`v[*p]` in the C source). -/
def lkey (v t : List Nat) (p : Nat) : Nat := v.getD (t.getD p 0) 0

/-- `INTP_SWAP(*a, *b)` on the index list. -/
def swapL (t : List Nat) (a b : Nat) : List Nat :=
  (t.set a (t.getD b 0)).set b (t.getD a 0)

/-- One step of numpy's argsort insertion sort, on the reversed prefix: the
new index `i` moves left past every already-placed index whose key is
strictly greater (`while (pj > pl && LT(vp, v[*pk]))`). -/
def insRevAux (kf : Nat → Nat) (i : Nat) : List Nat → List Nat
  | [] => [i]
  | j :: rest => if kf i < kf j then j :: insRevAux kf i rest else i :: j :: rest

/-- numpy's argsort insertion sort (result reversed). -/
def ainsRev (kf : Nat → Nat) (l : List Nat) : List Nat :=
  l.foldl (fun acc i => insRevAux kf i acc) []

/-- numpy's argsort insertion sort over a list of indices. -/
def ains (kf : Nat → Nat) (l : List Nat) : List Nat := (ainsRev kf l).reverse

/-- The inclusive segment `t[pl..pr]`. -/
def segOf (t : List Nat) (pl pr : Nat) : List Nat := (t.drop pl).take (pr + 1 - pl)

/-- The insertion-sort pass of numpy's `aquicksort` on the segment
`[pl, pr]`. -/
def insertSeg (v t : List Nat) (pl pr : Nat) : List Nat :=
  t.take pl ++ ains (fun i => v.getD i 0) (segOf t pl pr) ++ t.drop (pr + 1)

/-- `do ++pi; while (LT(v[*pi], vp))`: first position `≥ p` whose key is not
below the pivot (fuel-bounded; the pivot copy at `pr-1` bounds the scan). -/
def scanUp (v t : List Nat) (vp : Nat) : Nat → Nat → Nat
  | 0, p => p
  | fuel + 1, p => if lkey v t p < vp then scanUp v t vp fuel (p + 1) else p

/-- `do --pj; while (LT(vp, v[*pj]))`: first position `≤ p` (going down)
whose key is not above the pivot. -/
def scanDn (v t : List Nat) (vp : Nat) : Nat → Nat → Nat
  | 0, p => p
  | fuel + 1, p => if vp < lkey v t p then scanDn v t vp fuel (p - 1) else p

/-- The partition exchange loop of numpy's `aquicksort`; returns the updated
index list and the final `pi`. -/
def partLoop (v : List Nat) (vp : Nat) : Nat → List Nat → Nat → Nat → List Nat × Nat
  | 0, t, pi, _ => (t, pi)
  | fuel + 1, t, pi, pj =>
    let pi2 := scanUp v t vp t.length (pi + 1)
    let pj2 := scanDn v t vp t.length (pj - 1)
    if pj2 ≤ pi2 then (t, pi2)
    else partLoop v vp fuel (swapL t pi2 pj2) pi2 pj2

/-- One quicksort partition of numpy's `aquicksort` on the segment
`[pl, pr]`: median-of-three pivot, pivot parked at `pr-1`, exchange scan,
pivot swapped to its final place `pi`. -/
def partitionSeg (v t : List Nat) (pl pr : Nat) : List Nat × Nat :=
  let pm := pl + (pr - pl) / 2
  let t := if lkey v t pm < lkey v t pl then swapL t pm pl else t
  let t := if lkey v t pr < lkey v t pm then swapL t pr pm else t
  let t := if lkey v t pm < lkey v t pl then swapL t pm pl else t
  let vp := lkey v t pm
  let t := swapL t pm (pr - 1)
  let r := partLoop v vp (pr - pl + 1) t pl (pr - 1)
  (swapL r.1 r.2 (pr - 1), r.2)

/-- The driver loop of numpy's `aquicksort` (introsort): partition while the
segment holds more than `SMALL_QUICKSORT = 15` gaps, pushing the larger half
on an explicit stack, insertion-sorting small segments.  The depth-limit
heapsort escape of the C source is not modelled (it is first reached at
recursion depth `2·log₂ n`, beyond every input considered here); the fuel is
ample for all runs below. -/
def qsLoop (v : List Nat) : Nat → List Nat → Nat → Nat → List (Nat × Nat) → List Nat
  | 0, t, _, _, _ => t
  | fuel + 1, t, pl, pr, stack =>
    if 15 < pr - pl then
      let pt := partitionSeg v t pl pr
      if pt.2 - pl < pr - pt.2 then
        qsLoop v fuel pt.1 pl (pt.2 - 1) ((pt.2 + 1, pr) :: stack)
      else
        qsLoop v fuel pt.1 (pt.2 + 1) pr ((pl, pt.2 - 1) :: stack)
    else
      let t2 := insertSeg v t pl pr
      match stack with
      | [] => t2
      | ab :: rest => qsLoop v fuel t2 ab.1 ab.2 rest

/-- numpy `np.argsort(v, kind='quicksort')` on int64 keys. -/
def npAargsort (v : List Nat) : List Nat :=
  qsLoop v (v.length * v.length + 2) (List.range v.length) 0 (v.length - 1) []

/-- pandas `nargsort(keys, kind='quicksort', ascending=True,
na_position='last')`: the non-null positions argsorted by numpy quicksort,
followed by the null positions in input order. -/
def nargsortKeys (keys : List (Option Nat)) : List Nat :=
  let n := keys.length
  let nonNan := (List.range n).filter (fun i => (keys.getD i none).isSome)
  let nanIdx := (List.range n).filter (fun i => !(keys.getD i none).isSome)
  let v := nonNan.map (fun i => (keys.getD i none).getD 0)
  (npAargsort v).map (fun j => nonNan.getD j 0) ++ nanIdx

/-- Sort key of one combined row (`none` = `NaT`). -/
def rowKey (r : Row) : Option Nat := r.date.map dateKey

/-- Model of `combine_json_data`: normalize the three sources, concatenate,
convert the date column, and sort by date with
`df.sort_values('date')` (pandas default quicksort, nulls last). -/
def combine_json_data (k : List KJson) (s : List SJson) (y : List YJson) : List Row :=
  let rows := (normalizeAll k s y).map convertRow
  (nargsortKeys (rows.map rowKey)).map (fun i => rows.getD i defRow)

/-- A geocoded row: the combined row plus the two appended coordinate
columns. -/
structure RowC extends Row where
  longitude : Option ℚ
  latitude : Option ℚ
deriving DecidableEq, Repr

/-- Model of `add_coords_from_cache(df, geo_dict)`: per row, clean the
address, fix the county name, look up coordinates, and append the
`longitude` / `latitude` columns. -/
def add_coords_from_cache (df : List Row) (geo : GeoDict) : List RowC :=
  df.map (fun row =>
    let cl := clean_address row.city row.location
    let cityFixed := fix_city_name row.prefecture cl.1
    let coords := lookup_coords row.prefecture cityFixed cl.2 geo
    { toRow := row, longitude := coords.longitude, latitude := coords.latitude })

/-- The column-header keywords of the Kanagawa bulletin table. -/
def column_titles : List Str :=
  [ "月日".data, "時間".data, "頭数".data, "状況".data, "場所等".data,
    "区分".data, "目撃・痕跡".data, "その他".data ]

/-- The stray caption 《目撃・痕跡・その他》 excluded by both parsers. -/
def caption : Str := "《目撃・痕跡・その他》".data

/-- Match `\d{1,2}日` at the head of `s` (greedy day, with regex
backtracking): returns (day value, characters consumed). -/
def matchDay (s : Str) : Option (Nat × Nat) :=
  match s with
  | a :: rest =>
    match digitVal a with
    | none => none
    | some va =>
      match rest with
      | b :: rest2 =>
        match digitVal b with
        | some vb =>
          match rest2 with
          | '日' :: _ => some (10 * va + vb, 3)
          | _ => if b = '日' then some (va, 2) else none
        | none => if b = '日' then some (va, 2) else none
      | [] => none
  | [] => none

/-- First alternative of the Kanagawa month grammar: `1[0-2]月` followed by
the day grammar. -/
def matchMonth2 (s : Str) : Option (Nat × Nat × Nat) :=
  match s with
  | '1' :: b :: '月' :: rest =>
    if b = '0' || b = '1' || b = '2' then
      (matchDay rest).map (fun (p : Nat × Nat) => (10 + (b.toNat - 48), p.1, 3 + p.2))
    else none
  | _ => none

/-- Second alternative of the Kanagawa month grammar: `[1-9]月` followed by
the day grammar. -/
def matchMonth1 (s : Str) : Option (Nat × Nat × Nat) :=
  match s with
  | a :: '月' :: rest =>
    match digitVal a with
    | some va =>
      if 1 ≤ va then (matchDay rest).map (fun (p : Nat × Nat) => (va, p.1, 2 + p.2))
      else none
    | none => none
  | _ => none

/-- Match the Kanagawa date regex `(1[0-2]|[1-9])月(\d{1,2})日` at the head
of `s` (alternation tried left to right, as the `re` engine does): returns
(month, day, characters consumed). -/
def matchMD (s : Str) : Option (Nat × Nat × Nat) :=
  match matchMonth2 s with
  | some r => some r
  | none => matchMonth1 s

/-- `re.search` for the Kanagawa date regex: leftmost match, returning
(start, month, day, length). -/
def searchMD : Str → Option (Nat × Nat × Nat × Nat)
  | [] => none
  | c :: cs =>
    match matchMD (c :: cs) with
    | some mdl => some (0, mdl)
    | none => (searchMD cs).map (fun r => (r.1 + 1, r.2))

/-- A Kanagawa source record, mirroring the JSON object written by
`parse_kanagawa_pdf`. -/
structure KRecord where
  date : Str
  time : Str
  number_of_bears : Str
  status : Str
  location : Str
  area_type : Str
  observation_type : Str
deriving DecidableEq, Repr

/-- Model of the per-line body of `parse_kanagawa_pdf`: drop blank lines,
the caption line and the column-title line; find the `○月○日` date; split the
remainder on whitespace; emit a record only when at least five tokens
remain. -/
def parse_kanagawa_line (line : Str) : Option KRecord :=
  if (strip line).isEmpty || containsSub caption line ||
     column_titles.all (fun t => containsSub t line) then none
  else
    match searchMD line with
    | none => none
    | some r =>
      let i := r.1
      let len := r.2.2.2
      let date_str := (line.drop i).take len
      let parts := splitWS (strip (line.drop (i + len)))
      if 5 ≤ parts.length then
        some { date := date_str,
               time := parts.getD 0 [],
               number_of_bears := parts.getD 1 [],
               status := parts.getD 2 [],
               location := List.intercalate [' '] ((parts.drop 3).take (parts.length - 5)),
               area_type := parts.getD (parts.length - 2) [],
               observation_type := parts.getD (parts.length - 1) [] }
      else none

/-- Two-digit alternative of `\d{1,2}/`. -/
def mdSlash2 (s : Str) : Option (Nat × Str) :=
  match s with
  | e :: f :: '/' :: r =>
    if (digitVal e).isSome && (digitVal f).isSome then some (3, r) else none
  | _ => none

/-- One-digit fallback of `\d{1,2}/`. -/
def mdSlash1 (s : Str) : Option (Nat × Str) :=
  match s with
  | e :: '/' :: r => if (digitVal e).isSome then some (2, r) else none
  | _ => none

/-- Match `\d{1,2}/` at the head of `s` (greedy, with backtracking):
returns (characters consumed, rest). -/
def mdSlash (s : Str) : Option (Nat × Str) :=
  match mdSlash2 s with
  | some r => some r
  | none => mdSlash1 s

/-- Match the trailing `\d{1,2}` of the Yamanashi date regex (greedy):
returns characters consumed. -/
def finalD12 : Str → Option Nat
  | a :: b :: _ =>
    if (digitVal a).isSome && (digitVal b).isSome then some 2
    else if (digitVal a).isSome then some 1
    else none
  | [a] => if (digitVal a).isSome then some 1 else none
  | [] => none

/-- Match the Yamanashi date regex `(\d{4}/\d{1,2}/\d{1,2})` at the head of
`s`: returns the match length. -/
def matchYMD (s : Str) : Option Nat :=
  match s with
  | a :: b :: c :: d :: '/' :: rest =>
    if (digitVal a).isSome && (digitVal b).isSome &&
       (digitVal c).isSome && (digitVal d).isSome then
      match mdSlash rest with
      | some kr => (finalD12 kr.2).map (fun j => 5 + kr.1 + j)
      | none => none
    else none
  | _ => none

/-- `re.search` for the Yamanashi date regex: leftmost match, returning
(start, length). -/
def searchYMD : Str → Option (Nat × Nat)
  | [] => none
  | c :: cs =>
    match matchYMD (c :: cs) with
    | some len => some (0, len)
    | none => (searchYMD cs).map (fun r => (r.1 + 1, r.2))

/-- Model of `re.sub(r'頃(?!\s)', '頃 ', s)`: force a space after every 頃
not already followed by whitespace (including a terminal 頃). -/
def subGoro : Str → Str
  | [] => []
  | c :: rest =>
    if c = '頃' then
      match rest with
      | [] => ['頃', ' ']
      | c2 :: _ => if isWS c2 then '頃' :: subGoro rest else '頃' :: ' ' :: subGoro rest
    else c :: subGoro rest

/-- Model of `city_pattern.match` for `(.+?[市町村])(.*)`: the shortest
prefix of length ≥ 2 ending in a boundary character (the dot does not cross a
newline), and the rest of the line. -/
def cityMatch (s : Str) : Option (Str × Str) :=
  let t := s.takeWhile (fun c => c ≠ '\n')
  match t with
  | [] => none
  | _ :: t1 =>
    match firstIdxP isBoundary t1 with
    | some j => some (t.take (j + 2), t.drop (j + 2))
    | none => none

/-- The three characters excluded by the negated class `[^晴雨曇]`. -/
def isBadLoc (c : Char) : Bool := c = '晴' || c = '雨' || c = '曇'

/-- Does `(?:晴|雨|曇|霧|雪|地内)` match at the head of `s`? -/
def markerAt : Str → Bool
  | '晴' :: _ => true
  | '雨' :: _ => true
  | '曇' :: _ => true
  | '霧' :: _ => true
  | '雪' :: _ => true
  | '地' :: '内' :: _ => true
  | _ => false

/-- Model of `location_pattern.match` for
`([^晴雨曇]{2,}?)((?:晴|雨|曇|霧|雪|地内).*)`: group 1 is the shortest
prefix of length ≥ 2, free of 晴/雨/曇, followed by a weather marker. -/
def locSplit (s : Str) : Option Str :=
  ((List.range (s.length + 1)).find? (fun k =>
      2 ≤ k && (s.take k).all (fun c => !isBadLoc c) && markerAt (s.drop k))).map
    (fun k => s.take k)

/-- A Yamanashi source record, mirroring the JSON object written by
`parse_yamanashi_pdf`. -/
structure YRecord where
  date : Str
  time : Str
  city : Str
  location : Str
  bear_count : Str
deriving DecidableEq, Repr

/-- The sentinel head count 不明 ("unknown"). -/
def unknownCount : Str := "不明".data

/-- Model of the per-line body of `parse_yamanashi_pdf`: skip blank/caption
lines, find the `YYYY/M/D` date, force a space after 頃, tokenize, then split
city / place by the locality-suffix and weather-marker grammars, and take the
head count from the last digit-bearing token from index 3 on. -/
def parse_yamanashi_line (line : Str) : Option YRecord :=
  if (strip line).isEmpty || containsSub caption line then none
  else
    match searchYMD line with
    | none => none
    | some r =>
      let date_str := (line.drop r.1).take r.2
      let after := subGoro (strip (line.drop (r.1 + r.2)))
      let parts := splitWS after
      if parts.length < 3 then none
      else
        let cl :=
          match cityMatch (List.intercalate [' '] (parts.drop 1)) with
          | some cp =>
            let location_full := strip cp.2
            match locSplit location_full with
            | some l => (cp.1, strip l)
            | none =>
              (cp.1, match splitWS location_full with
                     | [] => location_full
                     | w :: _ => w)
          | none => (parts.getD 1 [], parts.getD 2 [])
        let nums := ((parts.drop 3).filter (fun x => x.any (fun c => (digitVal c).isSome))).map
          (fun x => x.filter (fun c => (digitVal c).isSome))
        some { date := date_str,
               time := parts.getD 0 [],
               city := cl.1,
               location := cl.2,
               bear_count := (nums.getLast?).getD unknownCount }

/-- The stability order on index positions with key function `kf`: strictly
smaller key, or equal key and smaller input position.  A sort is stable by
date exactly when its output is pairwise ordered by this relation. -/
def stkOrd (kf : Nat → Nat) (a b : Nat) : Prop :=
  kf a < kf b ∨ (kf a = kf b ∧ a < b)

/-- A small concrete geocode dictionary used to witness the lookup
theorems. -/
def geoW : GeoDict :=
  [ (shizuokaPref,
     [ ("静岡市".data,
        [ ("葵区".data, { longitude := some 138, latitude := some 35 }),
          (sentinelArea, { longitude := some 137, latitude := some 34 }) ]) ]) ]

/-- Seventeen Kanagawa JSON records sharing one date, with pairwise distinct
place strings: the input exhibiting the instability of the default
quicksort. -/
def cexK : List KJson :=
  (List.range 17).map (fun i =>
    { date := some ("6月19日".data), location := some (Nat.toDigits 10 i) })

/-- The Variant A example line of the specification. -/
def exLineA : Str := "6月19日 14:00 1頭 徘徊 ○○地区付近 A 目撃".data

/-- A Variant A line whose only date substring has day 45. -/
def cexLineA : Str := "6月45日 14:00 1頭 徘徊 A 目撃".data

/-- The Variant B example line of the specification. -/
def exLineB : Str := "2024/6/4 14:00頃 甲府市 ○○町地内 晴れ 2頭".data

/-- The record the specification expects for `exLineB`. -/
def exRecB : YRecord :=
  { date := "2024/6/4".data, time := "14:00頃".data, city := "甲府市".data,
    location := "○○町".data, bear_count := "2".data }

/-- The head count named by the specification: the last token, among tokens
from index 3 onward, that contains at least one digit, with non-digit
characters stripped; the unknown sentinel when no such token exists.
(Spec-side formulation, to be compared with the parser's computation.) -/
def headCountSpec (parts : List Str) : Str :=
  match ((parts.drop 3).filter (fun x => x.any (fun c => (digitVal c).isSome))).getLast? with
  | some t => t.filter (fun c => (digitVal c).isSome)
  | none => unknownCount

theorem len_dropWhile_le (p : Char → Bool) (s : Str) :
    (s.dropWhile p).length ≤ s.length := by
  induction s with
  | nil => simp [List.dropWhile]
  | cons c cs ih =>
    simp only [List.dropWhile]
    split
    · exact Nat.le_succ_of_le ih
    · simp

theorem len_takeWhile_le (p : Char → Bool) (s : Str) :
    (s.takeWhile p).length ≤ s.length := by
  induction s with
  | nil => simp [List.takeWhile]
  | cons c cs ih =>
    simp only [List.takeWhile]
    split
    · simpa using ih
    · simp

theorem strip_len_le (s : Str) : (strip s).length ≤ s.length := by
  unfold strip stripR stripL
  calc ((s.dropWhile isWS).reverse.dropWhile isWS).reverse.length
      = ((s.dropWhile isWS).reverse.dropWhile isWS).length := by simp
    _ ≤ (s.dropWhile isWS).reverse.length := len_dropWhile_le _ _
    _ = (s.dropWhile isWS).length := by simp
    _ ≤ s.length := len_dropWhile_le _ _

theorem replaceAllF_nil_len_le (pat : Str) (fuel : Nat) :
    ∀ s : Str, (replaceAllF pat [] fuel s).length ≤ s.length := by
  induction fuel with
  | zero => intro s; simp [replaceAllF]
  | succ f ih =>
    intro s
    cases s with
    | nil => simp [replaceAllF]
    | cons c cs =>
      rw [replaceAllF]
      split
      · simp only [List.nil_append]
        exact le_trans (ih _) (by simp [List.length_drop])
      · simpa using ih cs

theorem replaceAll_nil_len_le (pat s : Str) :
    (replaceAll pat [] s).length ≤ s.length :=
  replaceAllF_nil_len_le pat (s.length + 1) s

theorem subBracketF_len_le (o cc : Char) (fuel : Nat) :
    ∀ s : Str, (subBracketF o cc fuel s).length ≤ s.length := by
  induction fuel with
  | zero => intro s; simp [subBracketF]
  | succ f ih =>
    intro s
    cases s with
    | nil => simp [subBracketF]
    | cons c cs =>
      by_cases hc : c = o
      · rw [subBracketF, if_pos hc]
        cases hfc : findClose cc cs with
        | some k =>
          simp only
          calc (subBracketF o cc f (cs.drop (k + 1))).length
              ≤ (cs.drop (k + 1)).length := ih _
            _ ≤ (c :: cs).length := by simp [List.length_drop]; omega
        | none => simpa using ih cs
      · rw [subBracketF, if_neg hc]
        simpa using ih cs

theorem subBracket_len_le (o cc : Char) (s : Str) :
    (subBracket o cc s).length ≤ s.length :=
  subBracketF_len_le o cc (s.length + 1) s

theorem foldlRemove_len_le (ws : List Str) (s : Str) :
    (ws.foldl (fun l w => replaceAll w [] l) s).length ≤ s.length := by
  induction ws generalizing s with
  | nil => simp
  | cons w ws ih =>
    simp only [List.foldl_cons]
    exact le_trans (ih _) (replaceAll_nil_len_le w s)

theorem clean_loc_len_le (c l : Option Str) :
    (clean_address c l).2.length ≤ (toS l).length := by
  unfold clean_address
  dsimp only
  split
  all_goals split
  all_goals
    refine le_trans (strip_len_le _) ?_
    refine le_trans (foldlRemove_len_le _ _) ?_
    refine le_trans (subBracket_len_le _ _ _) ?_
    refine le_trans (subBracket_len_le _ _ _) ?_
  all_goals split
  all_goals
    try refine le_trans (len_takeWhile_le _ _) ?_
  all_goals
    try simp only [List.length_drop]
  all_goals
    try refine le_trans (replaceAll_nil_len_le _ _) ?_
  all_goals
    first
    | exact le_refl _
    | exact le_trans (strip_len_le _) (by simp [List.length_drop])

theorem clean_city_cases (c l : Option Str) :
    (clean_address c l).1 = strip (toS c) ∨
    (clean_address c l).1 = strip (toS c ++ riku) := by
  unfold clean_address
  dsimp only
  split
  all_goals split
  all_goals simp

/-- C10: in the Address Cleaner, the middle-dot truncation, bracket removal
and noise-token removal act only on the place field: the returned locality is
the input locality (null read as empty), possibly with the ward suffix 緑区
appended, stripped of surrounding whitespace — nothing else is ever removed
from it. -/
theorem claim_c10_city_frame (c l : Option Str) :
    (clean_address c l).1 = strip (toS c) ∨
    (clean_address c l).1 = strip (toS c ++ riku) :=
  clean_city_cases c l

/-- C1 counterexample: the Address Cleaner is not idempotent — on
(locality, place) = ("a", "aa") one application yields ("a", "a") and a
second application yields ("a", ""). -/
theorem claim_c1_counterexample :
    (fun p : Str × Str => clean_address (some p.1) (some p.2))
        (clean_address (some ("a".data)) (some ("aa".data)))
      ≠ clean_address (some ("a".data)) (some ("aa".data)) := by
  decide

/-- C1 (amended): a second application of the Address Cleaner never enlarges
its output — the re-cleaned place is no longer than the once-cleaned place,
and the re-cleaned locality is the once-cleaned locality, possibly with 緑区
appended, re-stripped; full idempotence fails (see the counterexample). -/
theorem claim_c1_amended (c l : Option Str) :
    (clean_address (some (clean_address c l).1) (some (clean_address c l).2)).2.length
      ≤ (clean_address c l).2.length ∧
    ((clean_address (some (clean_address c l).1) (some (clean_address c l).2)).1
        = strip (clean_address c l).1 ∨
     (clean_address (some (clean_address c l).1) (some (clean_address c l).2)).1
        = strip ((clean_address c l).1 ++ riku)) :=
  ⟨clean_loc_len_le _ _, clean_city_cases _ _⟩

/-- C3: for every query and dictionary, `lookup_coords` follows the
three-tier fallback — an exact (region, locality, sub-area) entry wins; else
the sentinel sub-area entry for the same (region, locality) is used; else
both coordinates are null. -/
theorem claim_c3_fallback (geo : GeoDict) (pref city area : Str) :
    (∀ v, geoPath geo pref city area = some v →
        lookup_coords pref city area geo = v) ∧
    (geoPath geo pref city area = none →
      ∀ v, geoPath geo pref city sentinelArea = some v →
        lookup_coords pref city area geo = v) ∧
    (geoPath geo pref city area = none →
      geoPath geo pref city sentinelArea = none →
        lookup_coords pref city area geo = { longitude := none, latitude := none }) := by
  unfold lookup_coords
  refine ⟨?_, ?_, ?_⟩ <;> intros <;> simp_all

/-- C3 witness: the three tiers observed on a concrete dictionary. -/
theorem claim_c3_fallback_witness :
    lookup_coords shizuokaPref ("静岡市".data) ("葵区".data) geoW
        = { longitude := some 138, latitude := some 35 } ∧
    lookup_coords shizuokaPref ("静岡市".data) ("駿河区".data) geoW
        = { longitude := some 137, latitude := some 34 } ∧
    lookup_coords yamanashiPref ("甲府市".data) ("葵区".data) geoW
        = { longitude := none, latitude := none } := by
  refine ⟨(claim_c3_fallback geoW _ _ _).1 _ (by decide),
          (claim_c3_fallback geoW _ _ _).2.1 (by decide) _ (by decide),
          (claim_c3_fallback geoW _ _ _).2.2 (by decide) (by decide)⟩

theorem parseSlashDate_valid (s : Str) (dt : Date) :
    parseSlashDate s = some dt → validDate dt = true := by
  unfold parseSlashDate
  split
  · split
    · dsimp only
      split
      · intro h
        cases h
        assumption
      · intro h; cases h
    · intro h; cases h
  · intro h; cases h

theorem convert_date_valid (o : Option Str) (dt : Date) :
    convert_date o = some dt → validDate dt = true := by
  unfold convert_date
  split
  · intro h; cases h
  · dsimp only
    split
    · intro h; cases h
    · split
      · exact parseSlashDate_valid _ _
      · split
        · exact parseSlashDate_valid _ _
        · intro h; cases h

/-- C4: the Date Normalizer is total — every input (including missing, empty,
digit-free and noisy strings) yields either a real calendar date or the
null-date sentinel — and the Geocode Stage lookup is likewise total: it
yields a stored dictionary entry or the null coordinate pair, for any
input. -/
theorem claim_c4_totality :
    (∀ s : Option Str, convert_date s = none ∨
       ∃ dt, convert_date s = some dt ∧ validDate dt = true) ∧
    (∀ (pref city area : Str) (geo : GeoDict),
       lookup_coords pref city area geo = { longitude := none, latitude := none } ∨
       geoPath geo pref city area = some (lookup_coords pref city area geo) ∨
       geoPath geo pref city sentinelArea = some (lookup_coords pref city area geo)) := by
  constructor
  · intro s
    cases h : convert_date s with
    | none => left; rfl
    | some dt => right; exact ⟨dt, rfl, convert_date_valid s dt h⟩
  · intro pref city area geo
    unfold lookup_coords
    cases h1 : geoPath geo pref city area with
    | some v => right; left; simp [h1]
    | none =>
      cases h2 : geoPath geo pref city sentinelArea with
      | some v => right; right; simp [h1, h2]
      | none => left; simp [h1, h2]

theorem optMin2_zero_right (x : Option Nat) : optMin2 x (some 0) = some 0 := by
  cases x with
  | none => rfl
  | some i =>
    simp only [optMin2]
    split
    · rfl
    · rename_i h
      have hi : i = 0 := by omega
      rw [hi]

theorem optMin2_zero_left (x : Option Nat) : optMin2 (some 0) x = some 0 := by
  cases x with
  | none => rfl
  | some i => simp [optMin2]

theorem optMin2_map_succ (a b : Option Nat) :
    optMin2 (a.map (· + 1)) (b.map (· + 1)) = (optMin2 a b).map (· + 1) := by
  cases a with
  | none => cases b <;> simp [optMin2]
  | some i =>
    cases b with
    | none => simp [optMin2]
    | some j =>
      by_cases h : j < i <;>
        simp [optMin2, h, Nat.add_lt_add_iff_right]

theorem pkBoundary_eq (s : Str) : pkBoundary s = firstIdxP isBoundary s := by
  induction s with
  | nil => rfl
  | cons c cs ih =>
    by_cases h1 : c = '市'
    · subst h1
      simp [pkBoundary, findChar, firstIdxP, isBoundary, optMin2_zero_left, optMin2_zero_right]
    · by_cases h2 : c = '町'
      · subst h2
        simp [pkBoundary, findChar, firstIdxP, isBoundary, optMin2_zero_left,
          optMin2_zero_right]
      · by_cases h3 : c = '村'
        · subst h3
          simp [pkBoundary, findChar, firstIdxP, isBoundary, optMin2_zero_left,
            optMin2_zero_right]
        · have hb : isBoundary c = false := by simp [isBoundary, h1, h2, h3]
          simp [pkBoundary, findChar, firstIdxP, h1, h2, h3, hb, optMin2_map_succ]
          exact congrArg (Option.map (· + 1)) ih

/-- C6 counterexample: with no 市/町/村 in the raw place string the locality
is the null object `NA`, not an empty string; and with a boundary character
the remainder is whitespace-stripped before becoming the place. -/
theorem claim_c6_counterexample :
    parse_kanagawa_location (some ("○○地区".data)) = (none, some ("○○地区".data)) ∧
    (parse_kanagawa_location (some ("○○地区".data))).1 ≠ some [] ∧
    parse_kanagawa_location (some ("A市 B".data)) = (some ("A市".data), some ("B".data)) ∧
    (parse_kanagawa_location (some ("A市 B".data))).2 ≠ some (" B".data) := by
  refine ⟨by decide, by decide, by decide, by decide⟩

/-- C6 (amended): the Record Normalizer splits a non-empty Kanagawa place
string at the earliest occurrence of 市, 町 or 村 — the prefix up to and
including that character becomes the locality and the remainder, stripped of
surrounding whitespace, becomes the place; when none of the three characters
occur, the locality is the null object `NA` and the whole raw string becomes
the place; a missing or empty raw string gives `NA` for both fields. -/
theorem claim_c6_amended (s : Str) (h : s ≠ []) :
    (parse_kanagawa_location (some s) =
      match firstIdxP isBoundary s with
      | some i => (some (s.take (i + 1)), some (strip (s.drop (i + 1))))
      | none => (none, some s)) ∧
    parse_kanagawa_location none = (none, none) ∧
    parse_kanagawa_location (some []) = (none, none) := by
  refine ⟨?_, rfl, rfl⟩
  have he : s.isEmpty = false := by
    cases s with
    | nil => exact absurd rfl h
    | cons a t => rfl
  simp only [parse_kanagawa_location, he]
  rw [pkBoundary_eq]
  simp

/-- C6 witness: the amended splitting rule observed on a concrete string. -/
theorem claim_c6_amended_witness :
    parse_kanagawa_location (some ("横浜市 緑区三保町".data)) =
      (some ("横浜市".data), some ("緑区三保町".data)) := by
  have hc := (claim_c6_amended ("横浜市 緑区三保町".data) (by decide)).1
  rw [hc]
  decide

/-- C5 counterexample: the Record Normalizer does produce null objects — a
Kanagawa record with an empty place string gets `NA` for both locality and
place, and one lacking 市/町/村 gets `NA` for its locality. -/
theorem claim_c5_counterexample :
    (normK { date := some ("6月19日".data), location := some [] }).city = none ∧
    (normK { date := some ("6月19日".data), location := some [] }).location = none ∧
    (normK { date := some ("6月19日".data), location := some ("○○地区".data) }).city
      = none := by
  refine ⟨by decide, by decide, by decide⟩

/-- C5 (amended): every record produced by the Record Normalizer carries one
of the three fixed source regions; locality and place, however, may be null
objects, not merely empty strings: for the Kanagawa source the locality is
`NA` exactly when the raw place string is missing, empty, or free of
市/町/村, and the place is `NA` exactly when the raw string is missing or
empty; for the other two sources a field is `NA` exactly when missing from
the source record. -/
theorem claim_c5_amended (k : List KJson) (s : List SJson) (y : List YJson) :
    (∀ r ∈ normalizeAll k s y,
       r.prefecture = kanagawaPref ∨ r.prefecture = shizuokaPref ∨
       r.prefecture = yamanashiPref) ∧
    (∀ j : KJson,
       ((normK j).city = none ↔
         (toS j.location = [] ∨ firstIdxP isBoundary (toS j.location) = none)) ∧
       ((normK j).location = none ↔ toS j.location = [])) ∧
    (∀ j : SJson, (normS j).city = j.municipality ∧ (normS j).location = j.location) ∧
    (∀ j : YJson, (normY j).city = j.city ∧ (normY j).location = j.location) := by
  refine ⟨?_, ?_, fun j => ⟨rfl, rfl⟩, fun j => ⟨rfl, rfl⟩⟩
  · intro r hr
    unfold normalizeAll at hr
    rcases List.mem_append.mp hr with h | h
    · rcases List.mem_append.mp h with h2 | h2
      · obtain ⟨a, -, rfl⟩ := List.mem_map.mp h2
        left; rfl
      · obtain ⟨a, -, rfl⟩ := List.mem_map.mp h2
        right; left; rfl
    · obtain ⟨a, -, rfl⟩ := List.mem_map.mp h
      right; right; rfl
  · intro j
    have hcity : (normK j).city = (parse_kanagawa_location j.location).1 := rfl
    have hloc : (normK j).location = (parse_kanagawa_location j.location).2 := rfl
    cases hl : j.location with
    | none =>
      constructor
      · simp [hcity, hl, parse_kanagawa_location, toS]
      · simp [hloc, hl, parse_kanagawa_location, toS]
    | some str =>
      cases str with
      | nil =>
        constructor
        · simp [hcity, hl, parse_kanagawa_location, toS, List.isEmpty]
        · simp [hloc, hl, parse_kanagawa_location, toS, List.isEmpty]
      | cons a t =>
        have he : (a :: t).isEmpty = false := rfl
        constructor
        · rw [hcity, hl]
          simp only [parse_kanagawa_location, he]
          rw [pkBoundary_eq]
          cases hb : firstIdxP isBoundary (a :: t) with
          | none => simp [hb, toS]
          | some i => simp [hb, toS]
        · rw [hloc, hl]
          simp only [parse_kanagawa_location, he]
          rw [pkBoundary_eq]
          cases hb : firstIdxP isBoundary (a :: t) with
          | none => simp [hb, toS]
          | some i => simp [hb, toS]

/-- C5 witness: the amended characterization applied at concrete records. -/
theorem claim_c5_amended_witness :
    ((normK { date := some ("6月19日".data), location := some ("○○地区".data) }).city
      = none) ∧
    ((normK { date := some ("6月19日".data),
              location := some ("○○地区".data) }).prefecture = kanagawaPref ∨
     (normK { date := some ("6月19日".data),
              location := some ("○○地区".data) }).prefecture = shizuokaPref ∨
     (normK { date := some ("6月19日".data),
              location := some ("○○地区".data) }).prefecture = yamanashiPref) := by
  constructor
  · exact ((claim_c5_amended [] [] []).2.1 _).1.mpr (Or.inr (by decide))
  · exact (claim_c5_amended
      [{ date := some ("6月19日".data), location := some ("○○地区".data) }] [] []).1 _
      (by decide)

theorem digitVal_le9 (c : Char) (v : Nat) : digitVal c = some v → v ≤ 9 := by
  unfold digitVal
  split
  · rename_i hc
    intro h
    cases h
    simp only [Bool.and_eq_true, decide_eq_true_eq] at hc
    omega
  · intro h; cases h

theorem matchDay_bound (s : Str) (d k : Nat) : matchDay s = some (d, k) → d ≤ 99 := by
  intro h
  unfold matchDay at h
  split at h
  · split at h
    · cases h
    · rename_i va hva
      have h9a := digitVal_le9 _ _ hva
      split at h
      · split at h
        · rename_i vb hvb
          have h9b := digitVal_le9 _ _ hvb
          split at h
          · simp only [Option.some.injEq, Prod.mk.injEq] at h
            omega
          · split at h
            · simp only [Option.some.injEq, Prod.mk.injEq] at h
              omega
            · cases h
        · split at h
          · simp only [Option.some.injEq, Prod.mk.injEq] at h
            omega
          · cases h
      · cases h
  · cases h

theorem matchMonth2_bound (s : Str) (m d len : Nat) :
    matchMonth2 s = some (m, d, len) → 10 ≤ m ∧ m ≤ 12 ∧ d ≤ 99 := by
  intro h
  unfold matchMonth2 at h
  split at h
  · rename_i b rest
    split at h
    · rename_i hb
      cases hd : matchDay rest with
      | none => rw [hd] at h; cases h
      | some p =>
        rw [hd] at h
        obtain ⟨pd, pk⟩ := p
        simp only [Option.map_some', Option.some.injEq, Prod.mk.injEq] at h
        obtain ⟨h1, h2, h3⟩ := h
        have hpd := matchDay_bound rest pd pk hd
        have hb' : b = '0' ∨ b = '1' ∨ b = '2' := by
          simpa [or_assoc] using hb
        rcases hb' with rfl | rfl | rfl
        · have hv : ('0' : Char).toNat = 48 := rfl
          omega
        · have hv : ('1' : Char).toNat = 49 := rfl
          omega
        · have hv : ('2' : Char).toNat = 50 := rfl
          omega
    · cases h
  · cases h

theorem matchMonth1_bound (s : Str) (m d len : Nat) :
    matchMonth1 s = some (m, d, len) → 1 ≤ m ∧ m ≤ 9 ∧ d ≤ 99 := by
  intro h
  unfold matchMonth1 at h
  split at h
  · rename_i a rest
    split at h
    · rename_i va hva
      have h9a := digitVal_le9 _ _ hva
      split at h
      · rename_i h1
        cases hd : matchDay rest with
        | none => rw [hd] at h; cases h
        | some p =>
          rw [hd] at h
          obtain ⟨pd, pk⟩ := p
          simp only [Option.map_some', Option.some.injEq, Prod.mk.injEq] at h
          obtain ⟨h2, h3, h4⟩ := h
          have hpd := matchDay_bound rest pd pk hd
          omega
      · cases h
    · cases h
  · cases h

theorem matchMD_bound (s : Str) (m d len : Nat) :
    matchMD s = some (m, d, len) → 1 ≤ m ∧ m ≤ 12 ∧ d ≤ 99 := by
  intro h
  unfold matchMD at h
  cases h2 : matchMonth2 s with
  | some r =>
    rw [h2] at h
    cases h
    have := matchMonth2_bound s m d len h2
    omega
  | none =>
    rw [h2] at h
    have := matchMonth1_bound s m d len h
    omega

theorem searchMD_sound (s : Str) (i m d len : Nat) :
    searchMD s = some (i, m, d, len) → matchMD (s.drop i) = some (m, d, len) := by
  induction s generalizing i with
  | nil => intro h; cases h
  | cons c cs ih =>
    intro h
    unfold searchMD at h
    cases hm : matchMD (c :: cs) with
    | some mdl =>
      rw [hm] at h
      simp only [Option.some.injEq, Prod.mk.injEq] at h
      obtain ⟨rfl, h2⟩ := h
      rw [List.drop_zero, hm, h2]
    | none =>
      rw [hm] at h
      cases hs : searchMD cs with
      | none => rw [hs] at h; cases h
      | some r =>
        rw [hs] at h
        simp only [Option.map_some', Option.some.injEq] at h
        obtain ⟨r1, rm, rd, rl⟩ := r
        simp only [Prod.mk.injEq] at h
        obtain ⟨h1, h2, h3, h4⟩ := h
        subst h1 h2 h3 h4
        rw [List.drop_succ_cons]
        exact ih r1 hs

theorem searchMD_none (s : Str) (h : searchMD s = none) :
    ∀ i, matchMD (s.drop i) = none := by
  induction s with
  | nil =>
    intro i
    rw [List.drop_nil]
    rfl
  | cons c cs ih =>
    unfold searchMD at h
    intro i
    cases hm : matchMD (c :: cs) with
    | some mdl => rw [hm] at h; cases h
    | none =>
      rw [hm] at h
      have hs : searchMD cs = none := by
        cases hs : searchMD cs with
        | none => rfl
        | some r => rw [hs] at h; cases h
      cases i with
      | zero => rw [List.drop_zero]; exact hm
      | succ n =>
        rw [List.drop_succ_cons]
        exact ih hs n

/-- C7 counterexample: the line `6月45日 14:00 1頭 徘徊 A 目撃` has day 45 in
its only date substring (every position where the date regex matches has a
day exceeding 31), yet the Variant A parser emits a record for it. -/
theorem claim_c7_counterexample :
    parse_kanagawa_line cexLineA =
      some { date := "6月45日".data, time := "14:00".data,
             number_of_bears := "1頭".data, status := "徘徊".data, location := [],
             area_type := "A".data, observation_type := "目撃".data } ∧
    ((List.range (cexLineA.length + 1)).all (fun i =>
        match matchMD (cexLineA.drop i) with
        | none => true
        | some mdl => decide (31 < mdl.2.1))) = true ∧
    (∀ i, cexLineA.length ≤ i → matchMD (cexLineA.drop i) = none) := by
  refine ⟨by decide, by decide, ?_⟩
  intro i hi
  rw [List.drop_eq_nil_of_le hi]
  rfl

/-- C7 (amended): the Variant A parser emits a record only for lines
containing a MM月DD日 substring whose month is between 1 and 12 and whose day
is any one- or two-digit number (0–99) — the day is not validated against the
1–31 range; a line with no such substring never yields a record. -/
theorem claim_c7_amended (line : Str) :
    (∀ r, parse_kanagawa_line line = some r →
       ∃ i m d len, matchMD (line.drop i) = some (m, d, len) ∧
         1 ≤ m ∧ m ≤ 12 ∧ d ≤ 99) ∧
    ((∀ i, matchMD (line.drop i) = none) → parse_kanagawa_line line = none) := by
  constructor
  · intro r hr
    unfold parse_kanagawa_line at hr
    split at hr
    · cases hr
    · cases hs : searchMD line with
      | none => rw [hs] at hr; cases hr
      | some q =>
        obtain ⟨i, m, d, len⟩ := q
        have hm := searchMD_sound line i m d len hs
        have hb := matchMD_bound _ m d len hm
        exact ⟨i, m, d, len, hm, hb.1, hb.2.1, hb.2.2⟩
  · intro hall
    unfold parse_kanagawa_line
    split
    · rfl
    · have hs : searchMD line = none := by
        cases hs : searchMD line with
        | none => rfl
        | some q =>
          obtain ⟨i, m, d, len⟩ := q
          have hcontra := searchMD_sound line i m d len hs
          rw [hall i] at hcontra
          cases hcontra
      rw [hs]

/-- C7 witness: the amended necessary condition observed on the
specification's example line. -/
theorem claim_c7_amended_witness :
    ∃ i m d len, matchMD (exLineA.drop i) = some (m, d, len) ∧
      1 ≤ m ∧ m ≤ 12 ∧ d ≤ 99 :=
  (claim_c7_amended exLineA).1
    { date := "6月19日".data, time := "14:00".data, number_of_bears := "1頭".data,
      status := "徘徊".data, location := "○○地区付近".data, area_type := "A".data,
      observation_type := "目撃".data }
    (by decide)

theorem headCount_eq (parts : List Str) :
    ((((parts.drop 3).filter (fun x => x.any (fun c => (digitVal c).isSome))).map
        (fun x => x.filter (fun c => (digitVal c).isSome))).getLast?).getD unknownCount
      = headCountSpec parts := by
  rw [List.getLast?_map]
  unfold headCountSpec
  cases h : ((parts.drop 3).filter (fun x => x.any (fun c => (digitVal c).isSome))).getLast? <;>
    simp [h]

/-- C8: for every line the Variant B parser accepts, the head-count field is
the last token (among tokens from index 3 onward of the tokenized
post-date text) containing at least one digit, with its non-digit characters
stripped, or the 不明 ("unknown") sentinel when no such token exists; and the
specification's example line yields city 甲府市, place ○○町 and head count
`2`. -/
theorem claim_c8_headcount :
    (∀ (line : Str) (r : YRecord), parse_yamanashi_line line = some r →
       ∃ i len, searchYMD line = some (i, len) ∧
         r.bear_count = headCountSpec (splitWS (subGoro (strip (line.drop (i + len)))))) ∧
    parse_yamanashi_line exLineB = some exRecB := by
  constructor
  · intro line r hr
    unfold parse_yamanashi_line at hr
    split at hr
    · cases hr
    · cases hsr : searchYMD line with
      | none => rw [hsr] at hr; cases hr
      | some q =>
        obtain ⟨i, len⟩ := q
        rw [hsr] at hr
        dsimp only at hr
        refine ⟨i, len, rfl, ?_⟩
        split at hr
        · cases hr
        · cases hr
          dsimp only
          exact headCount_eq (splitWS (subGoro (strip (line.drop (i + len)))))
  · decide

/-- C8 witness: the head-count law instantiated on the example line. -/
theorem claim_c8_headcount_witness :
    ∃ i len, searchYMD exLineB = some (i, len) ∧
      exRecB.bear_count
        = headCountSpec (splitWS (subGoro (strip (exLineB.drop (i + len))))) :=
  claim_c8_headcount.1 exLineB exRecB claim_c8_headcount.2

/-- C9: the Geocode Stage returns exactly the input records, in order, with
every `region` / `date` / `locality` / `place` field unchanged and only the
two coordinate columns appended; no record is dropped, null coordinates
included. -/
theorem claim_c9_frame (df : List Row) (geo : GeoDict) :
    (add_coords_from_cache df geo).map (fun r => r.toRow) = df ∧
    (add_coords_from_cache df geo).length = df.length ∧
    (add_coords_from_cache df geo).map (fun r => (r.longitude, r.latitude))
      = df.map (fun row =>
          let cl := clean_address row.city row.location
          let coords := lookup_coords row.prefecture
            (fix_city_name row.prefecture cl.1) cl.2 geo
          (coords.longitude, coords.latitude)) := by
  refine ⟨?_, ?_, ?_⟩
  · unfold add_coords_from_cache
    rw [List.map_map]
    have : ∀ row : Row,
        ((fun r : RowC => r.toRow) ∘ fun row =>
          ({ toRow := row,
             longitude := (lookup_coords row.prefecture
               (fix_city_name row.prefecture (clean_address row.city row.location).1)
               (clean_address row.city row.location).2 geo).longitude,
             latitude := (lookup_coords row.prefecture
               (fix_city_name row.prefecture (clean_address row.city row.location).1)
               (clean_address row.city row.location).2 geo).latitude } : RowC)) row = row :=
      fun row => rfl
    calc df.map _ = df.map id := List.map_congr_left (fun a _ => this a)
      _ = df := List.map_id df
  · unfold add_coords_from_cache
    simp
  · unfold add_coords_from_cache
    rw [List.map_map]
    rfl

theorem stkOrd_trans (kf : Nat → Nat) (a b c : Nat)
    (h1 : stkOrd kf a b) (h2 : stkOrd kf b c) : stkOrd kf a c := by
  rcases h1 with h1 | ⟨h1, h1'⟩ <;> rcases h2 with h2 | ⟨h2, h2'⟩
  · exact Or.inl (lt_trans h1 h2)
  · exact Or.inl (h2 ▸ h1)
  · exact Or.inl (h1 ▸ h2)
  · exact Or.inr ⟨h1.trans h2, lt_trans h1' h2'⟩

theorem stkOrd_asymm (kf : Nat → Nat) (a b : Nat)
    (h1 : stkOrd kf a b) (h2 : stkOrd kf b a) : False := by
  rcases h1 with h1 | ⟨h1, h1'⟩ <;> rcases h2 with h2 | ⟨h2, h2'⟩ <;> omega

theorem insRevAux_spec (kf : Nat → Nat) (i : Nat) (acc : List Nat)
    (hacc : acc.Pairwise (fun a b => stkOrd kf b a))
    (hlt : ∀ a ∈ acc, a < i) :
    (insRevAux kf i acc).Pairwise (fun a b => stkOrd kf b a) ∧
    (∀ x, x ∈ insRevAux kf i acc ↔ x = i ∨ x ∈ acc) := by
  induction acc with
  | nil =>
    refine ⟨List.pairwise_singleton _ _, ?_⟩
    intro x
    simp [insRevAux]
  | cons j rest ih =>
    rw [List.pairwise_cons] at hacc
    obtain ⟨hj, hrest⟩ := hacc
    by_cases hk : kf i < kf j
    · rw [show insRevAux kf i (j :: rest) = j :: insRevAux kf i rest by
        simp [insRevAux, hk]]
      obtain ⟨ihp, ihm⟩ := ih hrest (fun a ha => hlt a (List.mem_cons_of_mem j ha))
      constructor
      · rw [List.pairwise_cons]
        refine ⟨?_, ihp⟩
        intro x hx
        rcases (ihm x).mp hx with rfl | hx2
        · exact Or.inl hk
        · exact hj x hx2
      · intro x
        rw [List.mem_cons]
        constructor
        · rintro (rfl | hx2)
          · exact Or.inr (List.mem_cons_self _ _)
          · rcases (ihm x).mp hx2 with rfl | hx3
            · exact Or.inl rfl
            · exact Or.inr (List.mem_cons_of_mem _ hx3)
        · rintro (rfl | hx2)
          · exact Or.inr (((ihm x).mpr (Or.inl rfl)))
          · rcases List.mem_cons.mp hx2 with rfl | hx3
            · exact Or.inl rfl
            · exact Or.inr ((ihm x).mpr (Or.inr hx3))
    · rw [show insRevAux kf i (j :: rest) = i :: j :: rest by
        simp [insRevAux, hk]]
      have hji : stkOrd kf j i := by
        rcases Nat.lt_or_ge (kf j) (kf i) with h | h
        · exact Or.inl h
        · have : kf j = kf i := le_antisymm (Nat.not_lt.mp hk) h
          exact Or.inr ⟨this, hlt j (List.mem_cons_self _ _)⟩
      constructor
      · rw [List.pairwise_cons]
        refine ⟨?_, List.pairwise_cons.mpr ⟨hj, hrest⟩⟩
        intro x hx
        rcases List.mem_cons.mp hx with rfl | hx2
        · exact hji
        · exact stkOrd_trans kf x j i (hj x hx2) hji
      · intro x
        simp [List.mem_cons]

theorem ainsRev_fold_spec (kf : Nat → Nat) (l : List Nat) :
    ∀ acc : List Nat, l.Pairwise (· < ·) →
      acc.Pairwise (fun a b => stkOrd kf b a) →
      (∀ a ∈ acc, ∀ b ∈ l, a < b) →
      (l.foldl (fun acc i => insRevAux kf i acc) acc).Pairwise (fun a b => stkOrd kf b a) ∧
      (∀ x, x ∈ l.foldl (fun acc i => insRevAux kf i acc) acc ↔ x ∈ acc ∨ x ∈ l) := by
  induction l with
  | nil =>
    intro acc _ hacc _
    refine ⟨hacc, ?_⟩
    simp
  | cons b t ih =>
    intro acc hl hacc hcross
    rw [List.pairwise_cons] at hl
    obtain ⟨hb, ht⟩ := hl
    have hltb : ∀ a ∈ acc, a < b := fun a ha => hcross a ha b (List.mem_cons_self _ _)
    obtain ⟨hp1, hm1⟩ := insRevAux_spec kf b acc hacc hltb
    simp only [List.foldl_cons]
    have hcross2 : ∀ a ∈ insRevAux kf b acc, ∀ c ∈ t, a < c := by
      intro a ha c hc
      rcases (hm1 a).mp ha with rfl | ha2
      · exact hb c hc
      · exact hcross a ha2 c (List.mem_cons_of_mem _ hc)
    obtain ⟨hp2, hm2⟩ := ih (insRevAux kf b acc) ht hp1 hcross2
    refine ⟨hp2, ?_⟩
    intro x
    rw [hm2 x, hm1 x]
    constructor
    · rintro ((rfl | hx) | hx)
      · exact Or.inr (List.mem_cons_self _ _)
      · exact Or.inl hx
      · exact Or.inr (List.mem_cons_of_mem _ hx)
    · rintro (hx | hx)
      · exact Or.inl (Or.inr hx)
      · rcases List.mem_cons.mp hx with rfl | hx2
        · exact Or.inl (Or.inl rfl)
        · exact Or.inr hx2

theorem ains_spec (kf : Nat → Nat) (l : List Nat) (hl : l.Pairwise (· < ·)) :
    (ains kf l).Pairwise (stkOrd kf) ∧ (∀ x, x ∈ ains kf l ↔ x ∈ l) := by
  obtain ⟨hp, hm⟩ := ainsRev_fold_spec kf l [] hl List.Pairwise.nil (by simp)
  constructor
  · unfold ains
    rw [List.pairwise_reverse]
    exact hp
  · intro x
    simp only [ains, ainsRev, List.mem_reverse, hm x, List.not_mem_nil, false_or]

theorem pairwise_indexOf_mono (r : Nat → Nat → Prop)
    (hasymm : ∀ a b, r a b → r b a → False)
    (l : List Nat) (hp : l.Pairwise r) (a b : Nat)
    (ha : a ∈ l) (hb : b ∈ l) (hr : r a b) :
    l.indexOf a < l.indexOf b := by
  have hia : l.indexOf a < l.length := List.indexOf_lt_length.mpr ha
  have hib : l.indexOf b < l.length := List.indexOf_lt_length.mpr hb
  have hga : l[l.indexOf a] = a := List.getElem_indexOf hia
  have hgb : l[l.indexOf b] = b := List.getElem_indexOf hib
  rcases Nat.lt_trichotomy (l.indexOf a) (l.indexOf b) with h | h | h
  · exact h
  · exfalso
    have hga2 : l[l.indexOf a]? = some a := by
      rw [List.getElem?_eq_getElem hia, hga]
    have hgb2 : l[l.indexOf b]? = some b := by
      rw [List.getElem?_eq_getElem hib, hgb]
    rw [h, hgb2] at hga2
    cases hga2
    exact hasymm a a hr hr
  · exfalso
    have := List.pairwise_iff_getElem.mp hp (l.indexOf b) (l.indexOf a) hib hia h
    rw [hga, hgb] at this
    exact hasymm a b hr this

theorem indexOf_map_inj (f : Nat → Nat) (l : List Nat) (a : Nat)
    (ha : a ∈ l) (hinj : ∀ x ∈ l, f x = f a → x = a) :
    (l.map f).indexOf (f a) = l.indexOf a := by
  induction l with
  | nil => cases ha
  | cons c t ih =>
    simp only [List.map_cons]
    by_cases hc : c = a
    · subst hc
      rw [List.indexOf_cons_self, List.indexOf_cons_self]
    · have hfc : f c ≠ f a := fun h => hc (hinj c (List.mem_cons_self _ _) h)
      have ha' : a ∈ t := by
        rcases List.mem_cons.mp ha with rfl | h
        · exact absurd rfl hc
        · exact h
      rw [List.indexOf_cons_ne _ hfc, List.indexOf_cons_ne _ hc,
        ih ha' (fun x hx => hinj x (List.mem_cons_of_mem _ hx))]

theorem indexOf_append_left (l1 l2 : List Nat) (a : Nat) (h : a ∈ l1) :
    (l1 ++ l2).indexOf a = l1.indexOf a := by
  induction l1 with
  | nil => cases h
  | cons c t ih =>
    by_cases hc : c = a
    · subst hc
      rw [List.cons_append, List.indexOf_cons_self, List.indexOf_cons_self]
    · have ha' : a ∈ t := by
        rcases List.mem_cons.mp h with rfl | h2
        · exact absurd rfl hc
        · exact h2
      rw [List.cons_append, List.indexOf_cons_ne _ hc, List.indexOf_cons_ne _ hc, ih ha']

theorem indexOf_append_right (l1 l2 : List Nat) (a : Nat) (h : a ∉ l1) :
    (l1 ++ l2).indexOf a = l1.length + l2.indexOf a := by
  induction l1 with
  | nil => simp
  | cons c t ih =>
    have hc : c ≠ a := fun hca => h (hca ▸ List.mem_cons_self _ _)
    have ht : a ∉ t := fun hta => h (List.mem_cons_of_mem _ hta)
    rw [List.cons_append, List.indexOf_cons_ne _ hc, ih ht]
    simp only [List.length_cons]
    omega

theorem npAargsort_small (v : List Nat) (h : v.length ≤ 16) :
    npAargsort v = ains (fun q => v.getD q 0) (List.range v.length) := by
  unfold npAargsort
  have h15 : ¬ (15 < v.length - 1 - 0) := by omega
  have htake : (List.range v.length).take (v.length - 1 + 1 - 0) = List.range v.length := by
    cases hn : v.length with
    | zero => rfl
    | succ n =>
      have h2 : n + 1 - 1 + 1 - 0 = n + 1 := by omega
      rw [h2]
      exact List.take_of_length_le (by simp)
  have hdrop : (List.range v.length).drop (v.length - 1 + 1) = [] := by
    cases hn : v.length with
    | zero => rfl
    | succ n =>
      have h2 : n + 1 - 1 + 1 = n + 1 := by omega
      rw [h2]
      exact List.drop_eq_nil_of_le (by simp)
  rw [show v.length * v.length + 2 = (v.length * v.length + 1) + 1 from rfl]
  simp only [qsLoop]
  rw [if_neg h15]
  unfold insertSeg segOf
  rw [List.take_zero, List.drop_zero, htake, hdrop]
  simp

theorem getD_map_fun (g : Nat → Nat) (l : List Nat) (q : Nat) (hq : q < l.length) (d : Nat) :
    (l.map g).getD q d = g (l.getD q d) := by
  rw [List.getD_eq_getElem _ _ (by rw [List.length_map]; exact hq),
    List.getD_eq_getElem _ _ hq, List.getElem_map]

theorem nargsort_stable (keys : List (Option Nat)) (h16 : keys.length ≤ 16)
    (i j : Nat) (hij : i < j) (hj : j < keys.length)
    (hk : keys.getD i none = keys.getD j none) :
    (nargsortKeys keys).indexOf i < (nargsortKeys keys).indexOf j := by
  unfold nargsortKeys
  dsimp only
  set nonNan := List.filter (fun q => (keys.getD q none).isSome) (List.range keys.length)
    with hnn
  set nanIdx := List.filter (fun q => !(keys.getD q none).isSome) (List.range keys.length)
    with hni
  set v := List.map (fun q => (keys.getD q none).getD 0) nonNan with hv
  set f : Nat → Nat := fun q => nonNan.getD q 0 with hf
  set out := npAargsort v with hout
  have hnnp : nonNan.Pairwise (· < ·) :=
    List.Pairwise.sublist (List.filter_sublist _) (List.pairwise_lt_range _)
  have hnnd : nonNan.Nodup :=
    List.Nodup.sublist (List.filter_sublist _) (List.nodup_range _)
  have hnlen : nonNan.length ≤ keys.length := by
    have := List.Sublist.length_le (List.filter_sublist
      (p := fun q => (keys.getD q none).isSome) (List.range keys.length))
    rw [List.length_range] at this
    exact hnn ▸ this
  have hvlen : v.length = nonNan.length := by rw [hv, List.length_map]
  have hv16 : v.length ≤ 16 := by omega
  have hsmall := npAargsort_small v hv16
  obtain ⟨houtp, houtm⟩ :=
    ains_spec (fun q => v.getD q 0) (List.range v.length) (List.pairwise_lt_range _)
  have houtp2 : out.Pairwise (stkOrd (fun q => v.getD q 0)) := by
    rw [hout, hsmall]; exact houtp
  have houtm2 : ∀ x, x ∈ out ↔ x < v.length := by
    intro x
    rw [hout, hsmall, houtm x, List.mem_range]
  have hin : i < keys.length := lt_trans hij hj
  cases hki : keys.getD i none with
  | some x =>
    have hkj : keys.getD j none = some x := by rw [← hk, hki]
    have hi_mem : i ∈ nonNan := by
      rw [hnn]
      refine List.mem_filter.mpr ⟨List.mem_range.mpr hin, ?_⟩
      show (keys.getD i none).isSome = true
      rw [hki]
      rfl
    have hj_mem : j ∈ nonNan := by
      rw [hnn]
      refine List.mem_filter.mpr ⟨List.mem_range.mpr hj, ?_⟩
      show (keys.getD j none).isSome = true
      rw [hkj]
      rfl
    have ha_lt : nonNan.indexOf i < nonNan.length := List.indexOf_lt_length.mpr hi_mem
    have hb_lt : nonNan.indexOf j < nonNan.length := List.indexOf_lt_length.mpr hj_mem
    have hab : nonNan.indexOf i < nonNan.indexOf j :=
      pairwise_indexOf_mono (· < ·) (fun a b h1 h2 => absurd h1 (Nat.lt_asymm h2))
        nonNan hnnp i j hi_mem hj_mem hij
    have hnna : nonNan.getD (nonNan.indexOf i) 0 = i := by
      rw [List.getD_eq_getElem _ _ ha_lt]
      exact List.getElem_indexOf ha_lt
    have hnnb : nonNan.getD (nonNan.indexOf j) 0 = j := by
      rw [List.getD_eq_getElem _ _ hb_lt]
      exact List.getElem_indexOf hb_lt
    have hkfa : v.getD (nonNan.indexOf i) 0 = (keys.getD i none).getD 0 := by
      rw [hv, getD_map_fun _ _ _ ha_lt, hnna]
    have hkfb : v.getD (nonNan.indexOf j) 0 = (keys.getD j none).getD 0 := by
      rw [hv, getD_map_fun _ _ _ hb_lt, hnnb]
    have hstk : stkOrd (fun q => v.getD q 0) (nonNan.indexOf i) (nonNan.indexOf j) := by
      refine Or.inr ⟨?_, hab⟩
      show v.getD (nonNan.indexOf i) 0 = v.getD (nonNan.indexOf j) 0
      rw [hkfa, hkfb, hki, hkj]
    have ha_out : nonNan.indexOf i ∈ out := (houtm2 _).mpr (by omega)
    have hb_out : nonNan.indexOf j ∈ out := (houtm2 _).mpr (by omega)
    have hidx : out.indexOf (nonNan.indexOf i) < out.indexOf (nonNan.indexOf j) :=
      pairwise_indexOf_mono _ (stkOrd_asymm _) out houtp2 _ _ ha_out hb_out hstk
    have hinj : ∀ c, c ∈ nonNan → ∀ z ∈ out, f z = f (nonNan.indexOf c) → z = nonNan.indexOf c := by
      intro c hc z hz hfz
      have hc_lt : nonNan.indexOf c < nonNan.length := List.indexOf_lt_length.mpr hc
      have hz_lt : z < nonNan.length := by
        have := (houtm2 z).mp hz
        omega
      have e1 : nonNan.getD z 0 = nonNan[z] := List.getD_eq_getElem _ _ hz_lt
      have e2 : nonNan.getD (nonNan.indexOf c) 0 = nonNan[nonNan.indexOf c] :=
        List.getD_eq_getElem _ _ hc_lt
      have hsame : nonNan[z] = nonNan[nonNan.indexOf c] := by
        rw [← e1, ← e2]
        exact hfz
      exact (List.Nodup.getElem_inj_iff hnnd).mp hsame
    have hfa : f (nonNan.indexOf i) = i := hnna
    have hfb : f (nonNan.indexOf j) = j := hnnb
    have hmap_i : (List.map f out).indexOf i = out.indexOf (nonNan.indexOf i) := by
      have h2 := indexOf_map_inj f out _ ha_out (hinj i hi_mem)
      rw [hfa] at h2
      exact h2
    have hmap_j : (List.map f out).indexOf j = out.indexOf (nonNan.indexOf j) := by
      have h2 := indexOf_map_inj f out _ hb_out (hinj j hj_mem)
      rw [hfb] at h2
      exact h2
    have hi_in : i ∈ List.map f out := by
      have h2 := List.mem_map_of_mem f ha_out
      rw [hfa] at h2
      exact h2
    have hj_in : j ∈ List.map f out := by
      have h2 := List.mem_map_of_mem f hb_out
      rw [hfb] at h2
      exact h2
    rw [indexOf_append_left _ _ i hi_in, indexOf_append_left _ _ j hj_in, hmap_i, hmap_j]
    exact hidx
  | none =>
    have hkj : keys.getD j none = none := by rw [← hk, hki]
    have hi_mem : i ∈ nanIdx := by
      rw [hni]
      refine List.mem_filter.mpr ⟨List.mem_range.mpr hin, ?_⟩
      show (!(keys.getD i none).isSome) = true
      rw [hki]
      rfl
    have hj_mem : j ∈ nanIdx := by
      rw [hni]
      refine List.mem_filter.mpr ⟨List.mem_range.mpr hj, ?_⟩
      show (!(keys.getD j none).isSome) = true
      rw [hkj]
      rfl
    have hnot : ∀ c, keys.getD c none = none → c ∉ List.map f out := by
      intro c hc hmem
      obtain ⟨q, hq, hfq⟩ := List.mem_map.mp hmem
      have hq_lt : q < nonNan.length := by
        have := (houtm2 q).mp hq
        omega
      have hmemnn : f q ∈ nonNan := by
        show nonNan.getD q 0 ∈ nonNan
        rw [List.getD_eq_getElem _ _ hq_lt]
        exact List.getElem_mem _
      rw [hfq] at hmemnn
      rw [hnn] at hmemnn
      have := (List.mem_filter.mp hmemnn).2
      rw [hc] at this
      simp at this
    have hnanp : nanIdx.Pairwise (· < ·) :=
      List.Pairwise.sublist (List.filter_sublist _) (List.pairwise_lt_range _)
    have hidx : nanIdx.indexOf i < nanIdx.indexOf j :=
      pairwise_indexOf_mono (· < ·) (fun a b h1 h2 => absurd h1 (Nat.lt_asymm h2))
        nanIdx hnanp i j hi_mem hj_mem hij
    rw [indexOf_append_right _ _ i (hnot i hki), indexOf_append_right _ _ j (hnot j hkj)]
    omega

theorem getD_map_row (g : Row → Option Nat) (l : List Row) (q : Nat)
    (hq : q < l.length) (d : Row) :
    (l.map g).getD q none = g (l.getD q d) := by
  rw [List.getD_eq_getElem _ _ (by rw [List.length_map]; exact hq),
    List.getD_eq_getElem _ _ hq, List.getElem_map]

/-- C2 counterexample: seventeen Kanagawa records, all with date 2024-06-19,
are reordered by the merge step's sort (pandas default quicksort, numpy
introsort): the sorted output lists the places in a different order than the
input, although every pair of records has identical dates. -/
theorem claim_c2_counterexample :
    (((normalizeAll cexK [] []).map convertRow).all
        (fun r => decide (r.date = some (⟨2024, 6, 19⟩ : Date)))) = true ∧
    (combine_json_data cexK [] []).map (fun r => r.location)
      ≠ ((normalizeAll cexK [] []).map convertRow).map (fun r => r.location) := by
  exact ⟨by decide, by decide⟩

/-- C2 (amended): the merge step concatenates the per-source records in
source-processing order and sorts them by date ascending with pandas'
default quicksort, which is *not* stable in general; records with identical
dates keep their relative input order only in the insertion-sort regime, when
the dataset holds at most 16 records.  Stated on the sort indexer: the output
position of record `i` (its index in the indexer) stays below that of any
later record `j` with the same date. -/
theorem claim_c2_amended (k : List KJson) (s : List SJson) (y : List YJson)
    (h16 : ((normalizeAll k s y).map convertRow).length ≤ 16)
    (i j : Nat) (hij : i < j) (hj : j < ((normalizeAll k s y).map convertRow).length)
    (hdate : (((normalizeAll k s y).map convertRow).getD i defRow).date
           = (((normalizeAll k s y).map convertRow).getD j defRow).date) :
    (nargsortKeys (((normalizeAll k s y).map convertRow).map rowKey)).indexOf i
      < (nargsortKeys (((normalizeAll k s y).map convertRow).map rowKey)).indexOf j := by
  apply nargsort_stable
  · rw [List.length_map]
    exact h16
  · exact hij
  · rw [List.length_map]
    exact hj
  · have hi : i < ((normalizeAll k s y).map convertRow).length := lt_trans hij hj
    rw [getD_map_row rowKey _ i hi defRow, getD_map_row rowKey _ j hj defRow]
    unfold rowKey
    rw [hdate]

/-- C2 witness: two same-date records in a two-record dataset keep their
order. -/
theorem claim_c2_amended_witness :
    (nargsortKeys (((normalizeAll
        [ { date := some ("6月19日".data), location := some ("あ".data) },
          { date := some ("6月19日".data), location := some ("い".data) } ]
        [] []).map convertRow).map rowKey)).indexOf 0
      < (nargsortKeys (((normalizeAll
        [ { date := some ("6月19日".data), location := some ("あ".data) },
          { date := some ("6月19日".data), location := some ("い".data) } ]
        [] []).map convertRow).map rowKey)).indexOf 1 :=
  claim_c2_amended _ [] [] (by decide) 0 1 (by decide) (by decide) (by decide)
